import Mathlib

/-!
Shallow embedding of `magenta/models/rl_tuner/note_rnn_loader.py`
(class `NoteRNNLoader`), together with the small helpers of
`rl_tuner_ops` that the file calls but that are not part of the sources
at hand; those helpers are modelled from the specification document and
are marked `Modelled from the spec:` in their doc comments.

External collaborators (TensorFlow's session/graph machinery, numpy, the
MIDI/melody glue) are abstracted: the learned forward pass is an opaque
function from (melody-sequence batch, lengths, initial state) to
(softmax rows, final state); the file system is an opaque existence
predicate; the checkpoint index is an opaque `directory -> latest file`
function.  Everything the Python file itself computes (control flow,
state threading, the name surgery for checkpoint variables, argmax and
one-hot construction, the guards on missing primer / missing training
data) is translated directly.
-/

namespace Magenta

/-- Modelled from the spec: `rl_tuner_ops.NUM_CLASSES` (not among the
sources), the fixed one-hot alphabet size; the spec's default
configuration uses vocabulary 38. -/
def NUM_CLASSES : Nat := 38

/-- Hyperparameter record; only the fields the loader reads. -/
structure HParams where
  one_hot_length : Nat
  rnn_layer_sizes : List Nat
  batch_size : Nat
deriving DecidableEq, Repr

/-- Modelled from the spec: `rl_tuner_ops.default_hparams` (not among the
sources); the documented default configuration: one layer of width 100,
vocabulary `NUM_CLASSES` = 38. -/
def default_hparams : HParams :=
  { one_hot_length := NUM_CLASSES, rnn_layer_sizes := [100], batch_size := 128 }

/-- The recurrent cell, reduced to the one attribute the loader reads
from it (`self.cell.state_size`). -/
structure Cell where
  state_size : Nat
deriving DecidableEq, Repr

/-- Modelled from the spec: `rl_tuner_ops.make_cell` (not among the
sources) builds the stacked recurrent cell from the hyperparameters; per
the spec's scenario, layer widths `[100]` give a state of width 100, so
the state width is the total of the layer widths. -/
def make_cell (hparams : HParams) : Cell :=
  { state_size := hparams.rnn_layer_sizes.sum }

/-- The characters after the first occurrence of `sep`, or `none` when
`sep` does not occur. -/
def dropThroughSep (sep : Char) : List Char → Option (List Char)
  | [] => none
  | c :: cs => if c = sep then some cs else dropThroughSep sep cs

/-- The characters before the first occurrence of `sep` (the whole list
when `sep` does not occur). -/
def takeUntilSep (sep : Char) : List Char → List Char
  | [] => []
  | c :: cs => if c = sep then [] else c :: takeUntilSep sep cs

/-- Modelled from the spec: `rl_tuner_ops.get_inner_scope` (not among
the sources) strips the outer live scope from a variable name: it drops
everything up to and including the first `/` separator (a name without a
separator is returned unchanged). -/
def get_inner_scope (s : String) : String :=
  match dropThroughSep '/' s.data with
  | some rest => String.mk rest
  | none => s

/-- Modelled from the spec: `rl_tuner_ops.trim_variable_postfixes` (not
among the sources) strips the known version/postfix suffixes from a
variable name: it drops everything from the first `:` on (TensorFlow's
`:0` output-version suffix). -/
def trim_variable_postfixes (s : String) : String :=
  String.mk (takeUntilSep ':' s.data)

/-- A graph variable, reduced to its name (`v.name` is all the loader
reads from it). -/
structure TFVariable where
  name : String
deriving DecidableEq, Repr

/-- The extracted primer melody, as the priming path consumes it: the
encoder's per-step input vectors (`primer_input`), the melody length
(`len(self.primer)`) and its steps per bar. -/
structure PrimerMelody where
  inputs : List (List ℚ)
  length : Nat
  steps_per_bar : Nat

/-- The built graph's learned forward pass, abstracted: `run` is the
`session.run` of `(softmax, state_tensor)` given the feeds for
`melody_sequence` (a batch of sequences of input vectors), `lengths`,
and `initial_state`; it returns the flattened softmax rows and the final
state. -/
structure Network where
  run : List (List (List ℚ)) → List Nat → List (List ℚ) → List (List ℚ) × List (List ℚ)

/-- `np.zeros((r, c))` as a list-of-rows matrix. -/
def zeroMatrix (r c : Nat) : List (List ℚ) :=
  List.replicate r (List.replicate c (0 : ℚ))

/-- A list-of-rows matrix of shape `r × c`. -/
def isMatrixOfDims (r c : Nat) (m : List (List ℚ)) : Prop :=
  m.length = r ∧ ∀ row ∈ m, row.length = c

instance (r c : Nat) (m : List (List ℚ)) : Decidable (isMatrixOfDims r c m) := by
  unfold isMatrixOfDims; infer_instance

/-- The state of a `NoteRNNLoader` instance: the constructor arguments it
stores, the built cell, and the mutable attributes the modelled methods
touch.  An `Option` field set to `none` models a Python attribute never
having been assigned: `primer = none` when `load_primer` returned early
or was never called, and `checkpoint_dir = none` always after
`__init__`, which accepts `experiment_dir` but stores nothing under
either name — `self.checkpoint_dir` is read by `restore_initialize_prime`
yet assigned nowhere in the class (only an external caller could set
it). -/
structure NoteRNNLoader where
  scope : String
  checkpoint_scope : String
  batch_size : Nat
  midi_primer : Option String
  training_file_list : Option (List String)
  hparams : HParams
  backup_checkpoint_file : Option String
  checkpoint_dir : Option String
  cell : Cell
  state_value : List (List ℚ)
  primer : Option PrimerMelody
  priming_note : Option (List Nat)

/-- `get_zero_state`: a matrix of `batch_size × cell.state_size` zeros. -/
def NoteRNNLoader.get_zero_state (m : NoteRNNLoader) : List (List ℚ) :=
  zeroMatrix m.batch_size m.cell.state_size

/-- `variables()`: all graph variables whose name starts with the
instance's scope. -/
def NoteRNNLoader.variables (graphVars : List TFVariable) (m : NoteRNNLoader) :
    List TFVariable :=
  graphVars.filter (fun v => m.scope.data.isPrefixOf v.name.data)

/-- The key under which `get_variable_name_dict` files one variable:
`self.checkpoint_scope + '/' + trim_variable_postfixes(get_inner_scope(var.name))`. -/
def NoteRNNLoader.checkpoint_name (m : NoteRNNLoader) (v : TFVariable) : String :=
  m.checkpoint_scope ++ "/" ++ trim_variable_postfixes (get_inner_scope v.name)

/-- `get_variable_name_dict`: the successive assignments
`var_dict[key] = var`, one per live variable, in order. -/
def NoteRNNLoader.get_variable_name_dict (graphVars : List TFVariable)
    (m : NoteRNNLoader) : List (String × TFVariable) :=
  (m.variables graphVars).map (fun v => (m.checkpoint_name v, v))

/-- Looking a key up in a Python dict built by successive assignments:
the last assignment to the key wins. -/
def dictLookup (d : List (String × TFVariable)) (k : String) : Option TFVariable :=
  match d with
  | [] => none
  | (k', v) :: rest =>
    match dictLookup rest k with
    | some v' => some v'
    | none => if k' = k then some v else none

/-- The scan behind `np.argmax`: walk the remaining entries with their
positions, keeping the earliest position of the strictly greatest value
seen so far (`numpy` keeps the first occurrence on ties). -/
def argmaxAux : List ℚ → Nat → Nat × ℚ → Nat × ℚ
  | [], _, best => best
  | x :: xs, i, (bi, bv) =>
    if bv < x then argmaxAux xs (i + 1) (i, x) else argmaxAux xs (i + 1) (bi, bv)

/-- `np.argmax` over a flat vector: the first index attaining the
maximum (0 on the empty vector, which `numpy` itself rejects). -/
def argmax (l : List ℚ) : Nat :=
  match l with
  | [] => 0
  | x :: xs => (argmaxAux xs 1 (0, x)).1

/-- Modelled from the spec: `rl_tuner_ops.make_onehot` (not among the
sources): the one-hot encoding of each listed index over an alphabet of
the given length. -/
def make_onehot (idxs : List Nat) (one_hot_length : Nat) : List (List Nat) :=
  idxs.map (fun i => (List.range one_hot_length).map (fun j => if j = i then 1 else 0))

/-- `get_note_from_softmax`: the one-hot encoding (over the fixed
alphabet `NUM_CLASSES`) of the argmax of the given distribution, the
`1 × NUM_CLASSES` result reshaped to a flat vector. -/
def NoteRNNLoader.get_note_from_softmax (softmax : List ℚ) : List Nat :=
  (make_onehot [argmax softmax] NUM_CLASSES).flatten

/-- `load_primer`: if no file exists at `self.midi_primer`, log a
warning and return (the flag records that the warning was logged);
otherwise extract the primer melody from the file and store it.
`__init__` only calls this when a primer path was given; the `none`
branch mirrors the guard there. -/
def NoteRNNLoader.load_primer (fileExists : String → Bool)
    (extractMelody : String → PrimerMelody) (m : NoteRNNLoader) :
    NoteRNNLoader × Bool :=
  match m.midi_primer with
  | none => (m, true)
  | some p =>
    if fileExists p then
      ({ m with primer := some (extractMelody p) }, false)
    else
      (m, true)

/-- `__init__`: store the constructor arguments, build the graph (the
cell), set the state to `get_zero_state`, and, when a primer path was
given, call `load_primer`.  The flag is `load_primer`'s warning flag
(`false` when priming data loaded or no primer path was given).  The
constructor's `experiment_dir` argument is accepted but never stored;
in particular `self.checkpoint_dir` is never assigned. -/
def NoteRNNLoader.init (scope checkpoint_scope : String)
    (midi_primer : Option String) (training_file_list : Option (List String))
    (hparams : Option HParams) (backup_checkpoint_file : Option String)
    (fileExists : String → Bool) (extractMelody : String → PrimerMelody) :
    NoteRNNLoader × Bool :=
  let hp := hparams.getD default_hparams
  let base : NoteRNNLoader :=
    { scope := scope
      checkpoint_scope := checkpoint_scope
      batch_size := 1
      midi_primer := midi_primer
      training_file_list := training_file_list
      hparams := hp
      backup_checkpoint_file := backup_checkpoint_file
      checkpoint_dir := none
      cell := make_cell hp
      state_value := []
      primer := none
      priming_note := none }
  let m := { base with state_value := base.get_zero_state }
  match midi_primer with
  | none => (m, false)
  | some _ => m.load_primer fileExists extractMelody

/-- `prime_model`: encode the primer melody, tile it to a
`batch_size`-sized batch, run the forward pass with the current
`self.state_value` as the initial state, store the returned final state,
and store the one-hot argmax of the last softmax row as
`self.priming_note`.  Reading `self.primer` when it was never assigned
raises; the error strings name the Python exceptions. -/
def NoteRNNLoader.prime_model (net : Network) (m : NoteRNNLoader) :
    Except String NoteRNNLoader :=
  match m.primer with
  | none => .error "AttributeError: NoteRNNLoader instance has no attribute primer"
  | some pm =>
    let primer_input := pm.inputs
    let primer_input_batch := List.replicate m.batch_size primer_input
    let lengths := List.replicate m.batch_size pm.length
    let out := net.run primer_input_batch lengths m.state_value
    match out.1.getLast? with
    | none => .error "IndexError: index -1 is out of bounds"
    | some priming_output =>
      .ok { m with
              state_value := out.2
              priming_note := some (NoteRNNLoader.get_note_from_softmax priming_output) }

/-- `get_next_note_from_note`: reshape the note to a
`(batch_size, 1, NUM_CLASSES)` batch (with the fixed `batch_size = 1`
this is the singleton batch `[[note]]`), run the forward pass with the
current `self.state_value` as the initial state, store the returned
final state, and return the one-hot argmax of the softmax output
(`np.argmax` flattens the softmax rows). -/
def NoteRNNLoader.get_next_note_from_note (net : Network) (m : NoteRNNLoader)
    (note : List ℚ) : List Nat × NoteRNNLoader :=
  let singleton_lengths := List.replicate m.batch_size 1
  let input_batch : List (List (List ℚ)) := [[note]]
  let out := net.run input_batch singleton_lengths m.state_value
  (NoteRNNLoader.get_note_from_softmax out.1.flatten, { m with state_value := out.2 })

/-- `run_training_batch`: when no training file list was provided, log a
warning and return nothing; otherwise start the queue runners and run
one batch through the training pipeline (the pipeline itself, built by
`sequence_example_lib.get_padded_batch` over the file list, is the
opaque `queueRun`).  Returns (result, warning-logged flag, instance). -/
def NoteRNNLoader.run_training_batch
    (queueRun : List String → List (List ℚ) × List (List ℚ) × List Nat)
    (m : NoteRNNLoader) :
    Option (List (List ℚ) × List (List ℚ) × List Nat) × Bool × NoteRNNLoader :=
  match m.training_file_list with
  | none => (none, true, m)
  | some files => (some (queueRun files), false, m)

/-- What `restore_vars_from_checkpoint` hands to `saver.restore`.
`withNone` records that the code reached `saver.restore` with a `None`
path (no guard fired); `explicitNoCheckpointError` is the outcome the
spec demands in that situation and is produced by no code path. -/
inductive RestoreCall
  | withPath (path : String)
  | withNone
  | explicitNoCheckpointError
deriving DecidableEq, Repr

/-- `restore_vars_from_checkpoint`: take the latest checkpoint under the
directory (`tf.train.latest_checkpoint`, the opaque `latest`); if there
is none, take `self.backup_checkpoint_file`; then call `saver.restore`
with the result, whatever it is. -/
def NoteRNNLoader.restore_vars_from_checkpoint (latest : String → Option String)
    (m : NoteRNNLoader) (checkpoint_dir : String) : RestoreCall :=
  match latest checkpoint_dir with
  | some f => .withPath f
  | none =>
    match m.backup_checkpoint_file with
    | some b => .withPath b
    | none => .withNone

/-- Modelled from the spec: `resolve_checkpoint_path(directory,
backup_path)` — prefer the most recent checkpoint found under the
directory; if none exists, fall back to the backup path; if both are
absent, fail with a clear "no checkpoint available" error. -/
def resolve_checkpoint_path_spec (latestFile backup : Option String) :
    Except String String :=
  match latestFile with
  | some f => .ok f
  | none =>
    match backup with
    | some b => .ok b
    | none => .error "no checkpoint available"

/-- The failure raised when the checkpoint-directory attribute was never
assigned (as after every `__init__`, which drops `experiment_dir`). -/
def checkpointDirAttributeError : String :=
  "AttributeError: NoteRNNLoader instance has no attribute checkpoint_dir"

/-- `restore_initialize_prime`: store the session, restore variables
from `self.checkpoint_dir`, then call `prime_model`.  Reading
`self.checkpoint_dir` raises when the attribute was never assigned —
which `__init__` never does — before any restore or priming happens.
When the attribute was set (only an external caller could have), the
pair records the restore invocation and the priming outcome (the
restore's own library call is external; its success for a present path
is assumed by reporting both components). -/
def NoteRNNLoader.restore_initialize_prime (net : Network)
    (latest : String → Option String) (m : NoteRNNLoader) :
    Except String (RestoreCall × Except String NoteRNNLoader) :=
  match m.checkpoint_dir with
  | none => .error checkpointDirAttributeError
  | some dir => .ok (m.restore_vars_from_checkpoint latest dir, m.prime_model net)

/-! ### Concrete collaborators and instances used in witnesses -/

/-- A deterministic melody-extraction collaborator for concrete instances. -/
def sampleMelody : String → PrimerMelody :=
  fun _ => { inputs := [[1], [0]], length := 2, steps_per_bar := 16 }

/-- A file system on which no path exists. -/
def noFiles : String → Bool := fun _ => false

/-- A file system on which every path exists. -/
def allFiles : String → Bool := fun _ => true

/-- Concrete instance: scope `s`, checkpoint scope `ckpt`, no primer, no
training data, no backup checkpoint file. -/
def sampleLoaderS : NoteRNNLoader :=
  (NoteRNNLoader.init "s" "ckpt" none none none none noFiles sampleMelody).1

/-- Concrete instance: scope `q`, checkpoint scope `ck`. -/
def sampleLoaderQ : NoteRNNLoader :=
  (NoteRNNLoader.init "q" "ck" none none none none noFiles sampleMelody).1

/-- Two distinct graph variables that the scope filter for scope `s` both
captures (one lives under `s` proper, the other under the sibling scope
`sx` that shares the string prefix) and that process to the same
checkpoint name. -/
def collidingVars : List TFVariable := [{ name := "s/w:0" }, { name := "sx/w:0" }]

/-- The analogous colliding pair for scope `q`. -/
def collidingVarsQ : List TFVariable := [{ name := "q/a:0" }, { name := "qz/a:0" }]

/-! ### Dict-lookup lemmas -/

/-- A key assigned by no entry looks up to nothing. -/
theorem dictLookup_eq_none (d : List (String × TFVariable)) (k : String)
    (h : ∀ p ∈ d, p.1 ≠ k) : dictLookup d k = none := by
  induction d with
  | nil => rfl
  | cons hd tl ih =>
    obtain ⟨k', v⟩ := hd
    have hk : k' ≠ k := h (k', v) (List.mem_cons_self _ _)
    have htl : dictLookup tl k = none := ih (fun p hp => h p (List.mem_cons_of_mem _ hp))
    simp [dictLookup, htl, hk]

/-- With pairwise-distinct keys, every entry is found by lookup. -/
theorem dictLookup_mem (d : List (String × TFVariable))
    (hnd : (d.map Prod.fst).Nodup) :
    ∀ p ∈ d, dictLookup d p.1 = some p.2 := by
  induction d with
  | nil => intro p hp; cases hp
  | cons hd tl ih =>
    obtain ⟨k', v⟩ := hd
    have hnd' : k' ∉ tl.map Prod.fst ∧ (tl.map Prod.fst).Nodup := by
      simpa [List.nodup_cons] using hnd
    intro p hp
    rcases List.mem_cons.1 hp with h | hmem
    · subst h
      have hk : ∀ q ∈ tl, q.1 ≠ k' := by
        intro q hq he
        exact hnd'.1 (he ▸ List.mem_map_of_mem Prod.fst hq)
      simp [dictLookup, dictLookup_eq_none tl k' hk]
    · have := ih hnd'.2 p hmem
      simp [dictLookup, this]

/-- The number of occurrences of an entry in the dict. -/
def entryCount (d : List (String × TFVariable)) (p : String × TFVariable) : Nat :=
  (d.filter (fun q => decide (q = p))).length

/-- An absent entry occurs zero times. -/
theorem entryCount_not_mem (d : List (String × TFVariable))
    (p : String × TFVariable) : p ∉ d → entryCount d p = 0 := by
  induction d with
  | nil => intro _; rfl
  | cons b tl ih =>
    intro h
    have hne : ¬(b = p) := fun he => h (he ▸ List.mem_cons_self _ _)
    have hnm : p ∉ tl := fun hm => h (List.mem_cons_of_mem _ hm)
    simpa [entryCount, List.filter_cons, hne] using ih hnm

/-- In a duplicate-free dict, a present entry occurs exactly once. -/
theorem entryCount_nodup_mem (d : List (String × TFVariable))
    (p : String × TFVariable) : d.Nodup → p ∈ d → entryCount d p = 1 := by
  induction d with
  | nil => intro _ h; cases h
  | cons b tl ih =>
    intro hnd hmem
    have hnd' := List.nodup_cons.1 hnd
    rcases List.mem_cons.1 hmem with h | hm
    · subst h
      have h0 : entryCount tl p = 0 := entryCount_not_mem tl p hnd'.1
      unfold entryCount at h0 ⊢
      rw [List.filter_cons]
      simp [h0]
    · have hne : ¬(b = p) := fun he => hnd'.1 (he ▸ hm)
      simpa [entryCount, List.filter_cons, hne] using ih hnd'.2 hm

/-! ### C1: the variable-name map, pointwise -/

/-- **C1, counterexample.** The claim fails as stated: with scope `s` and
checkpoint scope `ckpt`, the two distinct live variables `s/w:0` and
`sx/w:0` (both pass the `startswith` scope filter of `variables()`)
process to the same checkpoint name `ckpt/w`, and the dict maps that
name to the later variable only — so the earlier live variable `s/w:0`
is not mapped to by its processed name. -/
theorem get_variable_name_dict_not_pointwise :
    ({ name := "s/w:0" } : TFVariable) ∈ sampleLoaderS.variables collidingVars ∧
    sampleLoaderS.checkpoint_name { name := "s/w:0" } = "ckpt/w" ∧
    dictLookup (sampleLoaderS.get_variable_name_dict collidingVars) "ckpt/w" ≠
      some { name := "s/w:0" } := by
  refine ⟨?_, rfl, ?_⟩ <;> decide

/-- **C1 (amended).** Provided the processed checkpoint names of the live
variables are pairwise distinct, the variable-name map sends the name
obtained by stripping the outer live scope and the version/postfix
suffixes, prefixed with `checkpoint_scope` and `/`, to that variable,
for every live variable in the instance's scope. -/
theorem get_variable_name_dict_pointwise (graphVars : List TFVariable)
    (m : NoteRNNLoader)
    (hnd : ((m.get_variable_name_dict graphVars).map Prod.fst).Nodup) :
    ∀ v ∈ m.variables graphVars,
      dictLookup (m.get_variable_name_dict graphVars)
        (m.checkpoint_scope ++ "/" ++ trim_variable_postfixes (get_inner_scope v.name)) =
        some v := by
  intro v hv
  have hmem : (m.checkpoint_name v, v) ∈ m.get_variable_name_dict graphVars :=
    List.mem_map_of_mem _ hv
  exact dictLookup_mem _ hnd _ hmem

/-- Witness for the amended C1 at a one-variable graph. -/
theorem get_variable_name_dict_pointwise_witness :
    dictLookup (sampleLoaderS.get_variable_name_dict [{ name := "s/w:0" }])
      (sampleLoaderS.checkpoint_scope ++ "/" ++
        trim_variable_postfixes (get_inner_scope "s/w:0")) =
      some { name := "s/w:0" } :=
  get_variable_name_dict_pointwise [{ name := "s/w:0" }] sampleLoaderS (by decide)
    { name := "s/w:0" } (by decide)

/-! ### C2: bijectivity of the variable-name map -/

/-- **C2, counterexample.** The claim fails as stated: the two distinct
live variables `q/a:0` and `qz/a:0` of the scope-`q` instance produce
the same checkpoint name, so the map is not a bijection. -/
theorem get_variable_name_dict_not_injective :
    ({ name := "q/a:0" } : TFVariable) ∈ sampleLoaderQ.variables collidingVarsQ ∧
    ({ name := "qz/a:0" } : TFVariable) ∈ sampleLoaderQ.variables collidingVarsQ ∧
    ({ name := "q/a:0" } : TFVariable) ≠ { name := "qz/a:0" } ∧
    sampleLoaderQ.checkpoint_name { name := "q/a:0" } =
      sampleLoaderQ.checkpoint_name { name := "qz/a:0" } := by
  refine ⟨?_, ?_, ?_, rfl⟩ <;> decide

/-- **C2 (amended).** Provided the processed checkpoint names of the live
variables are pairwise distinct, the map is a bijection between the live
variables and the expected checkpoint names: no two distinct live
variables produce the same checkpoint name, and every live variable has
exactly one entry in the map. -/
theorem get_variable_name_dict_bijective (graphVars : List TFVariable)
    (m : NoteRNNLoader)
    (hnd : ((m.get_variable_name_dict graphVars).map Prod.fst).Nodup) :
    (∀ v1 ∈ m.variables graphVars, ∀ v2 ∈ m.variables graphVars,
        m.checkpoint_name v1 = m.checkpoint_name v2 → v1 = v2) ∧
    ∀ v ∈ m.variables graphVars,
      entryCount (m.get_variable_name_dict graphVars) (m.checkpoint_name v, v) = 1 := by
  have hkeys : (m.get_variable_name_dict graphVars).map Prod.fst =
      (m.variables graphVars).map m.checkpoint_name := by
    simp [NoteRNNLoader.get_variable_name_dict, List.map_map, Function.comp]
  constructor
  · intro v1 h1 v2 h2 he
    exact List.inj_on_of_nodup_map (hkeys ▸ hnd) h1 h2 he
  · intro v hv
    have hdnd : (m.get_variable_name_dict graphVars).Nodup := hnd.of_map _
    have hmem : (m.checkpoint_name v, v) ∈ m.get_variable_name_dict graphVars :=
      List.mem_map_of_mem _ hv
    exact entryCount_nodup_mem _ _ hdnd hmem

/-- Witness for the amended C2 at a two-variable graph without
collisions. -/
theorem get_variable_name_dict_bijective_witness :
    entryCount
      (sampleLoaderQ.get_variable_name_dict
        [{ name := "q/a:0" }, { name := "q/b:0" }])
      (sampleLoaderQ.checkpoint_name { name := "q/a:0" }, { name := "q/a:0" }) = 1 :=
  (get_variable_name_dict_bijective [{ name := "q/a:0" }, { name := "q/b:0" }]
      sampleLoaderQ (by decide)).2 { name := "q/a:0" } (by decide)

/-! ### Argmax lemmas -/

/-- Invariants of the argmax scan, for an accumulator whose index lies
before the current position: the result dominates the accumulator value
and every scanned entry; it is the accumulator or a scanned entry at its
reported position; and it strictly dominates the accumulator and every
scanned entry lying strictly before the reported position (first
occurrence wins on ties). -/
theorem argmaxAux_spec (xs : List ℚ) : ∀ (i bi : Nat) (bv : ℚ), bi < i →
    bv ≤ (argmaxAux xs i (bi, bv)).2 ∧
    (∀ k (hk : k < xs.length), xs.get ⟨k, hk⟩ ≤ (argmaxAux xs i (bi, bv)).2) ∧
    (argmaxAux xs i (bi, bv) = (bi, bv) ∨
      ∃ k, ∃ hk : k < xs.length,
        (argmaxAux xs i (bi, bv)).1 = i + k ∧
        (argmaxAux xs i (bi, bv)).2 = xs.get ⟨k, hk⟩) ∧
    (bi < (argmaxAux xs i (bi, bv)).1 → bv < (argmaxAux xs i (bi, bv)).2) ∧
    (∀ k (hk : k < xs.length), i + k < (argmaxAux xs i (bi, bv)).1 →
      xs.get ⟨k, hk⟩ < (argmaxAux xs i (bi, bv)).2) := by
  induction xs with
  | nil =>
    intro i bi bv _
    refine ⟨le_refl _, ?_, Or.inl rfl, ?_, ?_⟩
    · intro k hk; cases hk
    · intro h; exact absurd h (lt_irrefl bi)
    · intro k hk; cases hk
  | cons x xs ih =>
    intro i bi bv hbi
    by_cases h : bv < x
    · have hr : argmaxAux (x :: xs) i (bi, bv) = argmaxAux xs (i + 1) (i, x) := by
        simp [argmaxAux, h]
      obtain ⟨ih1, ih2, ih3, ih4, ih5⟩ := ih (i + 1) i x (Nat.lt_succ_self i)
      rw [hr]
      refine ⟨le_of_lt (lt_of_lt_of_le h ih1), ?_, ?_, ?_, ?_⟩
      · intro k hk
        match k, hk with
        | 0, _ => exact ih1
        | k + 1, hk => exact ih2 k (by simpa using Nat.lt_of_succ_lt_succ hk)
      · rcases ih3 with h3 | ⟨k, hk, hk1, hk2⟩
        · refine Or.inr ⟨0, by simp, ?_, ?_⟩
          · rw [h3]
            rfl
          · rw [h3]
            rfl
        · refine Or.inr ⟨k + 1, by simpa using Nat.succ_lt_succ hk, ?_, ?_⟩
          · rw [hk1]; omega
          · rw [hk2]
            rfl
      · intro _; exact lt_of_lt_of_le h ih1
      · intro k hk
        match k, hk with
        | 0, _ => intro hlt; exact ih4 (by omega)
        | k + 1, hk =>
          intro hlt
          exact ih5 k (by simpa using Nat.lt_of_succ_lt_succ hk) (by omega)
    · have hx : x ≤ bv := not_lt.1 h
      have hr : argmaxAux (x :: xs) i (bi, bv) = argmaxAux xs (i + 1) (bi, bv) := by
        simp [argmaxAux, h]
      obtain ⟨ih1, ih2, ih3, ih4, ih5⟩ := ih (i + 1) bi bv (Nat.lt_succ_of_lt hbi)
      rw [hr]
      refine ⟨ih1, ?_, ?_, ih4, ?_⟩
      · intro k hk
        match k, hk with
        | 0, _ => exact le_trans hx ih1
        | k + 1, hk => exact ih2 k (by simpa using Nat.lt_of_succ_lt_succ hk)
      · rcases ih3 with h3 | ⟨k, hk, hk1, hk2⟩
        · exact Or.inl h3
        · refine Or.inr ⟨k + 1, by simpa using Nat.succ_lt_succ hk, ?_, ?_⟩
          · rw [hk1]; omega
          · rw [hk2]; rfl
      · intro k hk
        match k, hk with
        | 0, _ =>
          intro hlt
          exact lt_of_le_of_lt hx (ih4 (by omega))
        | k + 1, hk =>
          intro hlt
          exact ih5 k (by simpa using Nat.lt_of_succ_lt_succ hk) (by omega)

/-- `np.argmax` of a nonempty vector: its result is a valid index, the
entry there dominates every entry, and strictly dominates every earlier
entry (the lowest index wins on exact ties). -/
theorem argmax_spec (x : ℚ) (xs : List ℚ) :
    ∃ hm : argmax (x :: xs) < (x :: xs).length,
      (∀ k (hk : k < (x :: xs).length),
        (x :: xs).get ⟨k, hk⟩ ≤ (x :: xs).get ⟨argmax (x :: xs), hm⟩) ∧
      ∀ k (hk : k < (x :: xs).length), k < argmax (x :: xs) →
        (x :: xs).get ⟨k, hk⟩ < (x :: xs).get ⟨argmax (x :: xs), hm⟩ := by
  obtain ⟨s1, s2, s3, s4, s5⟩ := argmaxAux_spec xs 1 0 x Nat.one_pos
  have hargmax : argmax (x :: xs) = (argmaxAux xs 1 (0, x)).1 := rfl
  have hvm : ∃ hm : argmax (x :: xs) < (x :: xs).length,
      (x :: xs).get ⟨argmax (x :: xs), hm⟩ = (argmaxAux xs 1 (0, x)).2 := by
    rcases s3 with h3 | ⟨k, hk, hk1, hk2⟩
    · rw [hargmax, h3]
      exact ⟨Nat.succ_pos _, rfl⟩
    · have hlt : argmax (x :: xs) < (x :: xs).length := by
        rw [hargmax, hk1, List.length_cons]
        omega
      refine ⟨hlt, ?_⟩
      rw [hk2]
      have hfin : (⟨argmax (x :: xs), hlt⟩ : Fin (x :: xs).length) =
          ⟨k + 1, by rw [List.length_cons]; omega⟩ := by
        apply Fin.ext
        simp only [hargmax, hk1]
        omega
      rw [hfin, List.get_cons_succ]
  obtain ⟨hm, hvm⟩ := hvm
  refine ⟨hm, ?_, ?_⟩
  · intro k hk
    rw [hvm]
    match k, hk with
    | 0, _ => exact s1
    | k + 1, hk => exact s2 k (by simpa using Nat.lt_of_succ_lt_succ hk)
  · intro k hk hklt
    rw [hvm]
    match k, hk with
    | 0, _ =>
      exact s4 (by rw [hargmax] at hklt; omega)
    | k + 1, hk =>
      refine s5 k (by simpa using Nat.lt_of_succ_lt_succ hk) ?_
      rw [hargmax] at hklt; omega

/-! ### One-hot lemmas -/

/-- `get_note_from_softmax` written out as an indicator vector over the
fixed alphabet. -/
theorem get_note_from_softmax_eq (softmax : List ℚ) :
    NoteRNNLoader.get_note_from_softmax softmax =
      (List.range NUM_CLASSES).map (fun j => if j = argmax softmax then 1 else 0) := by
  simp [NoteRNNLoader.get_note_from_softmax, make_onehot]

/-- The returned vector always has the fixed alphabet length. -/
theorem get_note_length (softmax : List ℚ) :
    (NoteRNNLoader.get_note_from_softmax softmax).length = NUM_CLASSES := by
  simp [get_note_from_softmax_eq]

/-- The returned vector is the indicator of the argmax index. -/
theorem get_note_pointwise (softmax : List ℚ) (j : Nat)
    (hj : j < (NoteRNNLoader.get_note_from_softmax softmax).length) :
    (NoteRNNLoader.get_note_from_softmax softmax).get ⟨j, hj⟩ =
      if j = argmax softmax then 1 else 0 := by
  simp only [get_note_from_softmax_eq, List.get_eq_getElem, List.getElem_map,
    List.getElem_range]

/-- An indicator vector over `range n` for an index below `n` holds the
value 1 exactly once. -/
theorem count_onehot (n a : Nat) (ha : a < n) :
    ((List.range n).map (fun j => if j = a then 1 else 0)).count 1 = 1 := by
  induction n with
  | zero => omega
  | succ n ih =>
    rw [List.range_succ, List.map_append, List.count_append]
    by_cases h : a < n
    · have hne : n ≠ a := by omega
      rw [ih h]
      simp [hne]
    · have ha' : a = n := by omega
      subst ha'
      have h0 : ((List.range a).map (fun j => if j = a then 1 else 0)).count 1 = 0 := by
        rw [List.count_eq_zero]
        intro hmem
        rw [List.mem_map] at hmem
        obtain ⟨j, hj, hfj⟩ := hmem
        have hja : j ≠ a := Nat.ne_of_lt (List.mem_range.1 hj)
        simp [hja] at hfj
      rw [h0]
      simp

/-- Over a distribution of the fixed alphabet length, the returned
vector has exactly one set position. -/
theorem get_note_count_one (softmax : List ℚ)
    (hlen : softmax.length = NUM_CLASSES) :
    (NoteRNNLoader.get_note_from_softmax softmax).count 1 = 1 := by
  cases softmax with
  | nil => exact absurd hlen (by decide)
  | cons x xs =>
    obtain ⟨hm, -, -⟩ := argmax_spec x xs
    rw [get_note_from_softmax_eq]
    exact count_onehot NUM_CLASSES _ (hlen ▸ hm)

/-! ### C4: get_note_from_softmax -/

/-- Custom-vocabulary hyperparameters for the C4 counterexample. -/
def hpVocab2 : HParams :=
  { one_hot_length := 2, rnn_layer_sizes := [100], batch_size := 128 }

/-- A loader configured with a vocabulary of size 2. -/
def loaderVocab2 : NoteRNNLoader :=
  (NoteRNNLoader.init "rnn" "rnn_model" none none (some hpVocab2) none
    noFiles sampleMelody).1

/-- **C4, counterexample.** The claim fails as stated: for an instance
configured with vocabulary size 2 (hparams one-hot alphabet size 2) and
the distribution `[1/2, 1/2]` over that vocabulary,
`get_note_from_softmax` returns a vector of the fixed length
`NUM_CLASSES` = 38, not of the configured vocabulary size — the function
ignores the instance's hparams. -/
theorem get_note_from_softmax_length_fixed :
    loaderVocab2.hparams.one_hot_length = 2 ∧
    (NoteRNNLoader.get_note_from_softmax [1 / 2, 1 / 2]).length = NUM_CLASSES ∧
    (NoteRNNLoader.get_note_from_softmax [1 / 2, 1 / 2]).length ≠
      loaderVocab2.hparams.one_hot_length := by
  refine ⟨rfl, get_note_length _, ?_⟩
  rw [get_note_length]
  decide

/-- **C4 (amended).** For every input distribution over the fixed
alphabet (`NUM_CLASSES` entries — equal to the `default_hparams`
vocabulary size, though not to a custom one), `get_note_from_softmax`
returns a one-hot vector of length `NUM_CLASSES` with exactly one set
position, and that position is the arg-max index of the input, with the
lowest index winning on exact ties. -/
theorem get_note_from_softmax_onehot (softmax : List ℚ)
    (hlen : softmax.length = NUM_CLASSES) :
    (NoteRNNLoader.get_note_from_softmax softmax).length = NUM_CLASSES ∧
    NUM_CLASSES = default_hparams.one_hot_length ∧
    (NoteRNNLoader.get_note_from_softmax softmax).count 1 = 1 ∧
    (∀ j (hj : j < (NoteRNNLoader.get_note_from_softmax softmax).length),
      (NoteRNNLoader.get_note_from_softmax softmax).get ⟨j, hj⟩ =
        if j = argmax softmax then 1 else 0) ∧
    ∃ hm : argmax softmax < softmax.length,
      (∀ k (hk : k < softmax.length),
        softmax.get ⟨k, hk⟩ ≤ softmax.get ⟨argmax softmax, hm⟩) ∧
      ∀ k (hk : k < softmax.length), k < argmax softmax →
        softmax.get ⟨k, hk⟩ < softmax.get ⟨argmax softmax, hm⟩ := by
  refine ⟨get_note_length _, rfl, get_note_count_one _ hlen, get_note_pointwise _, ?_⟩
  cases softmax with
  | nil => exact absurd hlen (by decide)
  | cons x xs => exact argmax_spec x xs

/-- The uniform distribution over the fixed alphabet. -/
def uniform38 : List ℚ := List.replicate NUM_CLASSES ((1 : ℚ) / 38)

/-- Witness for the amended C4 at the uniform distribution. -/
theorem get_note_from_softmax_onehot_witness :
    uniform38.length = NUM_CLASSES ∧
    (NoteRNNLoader.get_note_from_softmax uniform38).length = NUM_CLASSES :=
  ⟨by decide, (get_note_from_softmax_onehot uniform38 (by decide)).1⟩

/-! ### C5: get_next_note_from_note -/

/-- A concrete forward pass: uniform softmax output, final state echoing
the initial state. -/
def uniformNet : Network :=
  { run := fun _ _ s => ([List.replicate NUM_CLASSES ((1 : ℚ) / 38)], s) }

/-- **C5.** `get_next_note_from_note` encodes the note as a length-1
batch, runs the single-step forward pass with the current Recurrent
State Vector as the initial state, updates the Recurrent State Vector to
the returned final state, and returns the one-hot encoding of the
arg-max index of the output distribution (lowest index on ties). -/
theorem get_next_note_from_note_spec (net : Network) (m : NoteRNNLoader)
    (note : List ℚ)
    (hlen : ((net.run [[note]] (List.replicate m.batch_size 1)
        m.state_value).1.flatten).length = NUM_CLASSES) :
    (m.get_next_note_from_note net note).2.state_value =
      (net.run [[note]] (List.replicate m.batch_size 1) m.state_value).2 ∧
    (m.get_next_note_from_note net note).1 =
      NoteRNNLoader.get_note_from_softmax
        ((net.run [[note]] (List.replicate m.batch_size 1) m.state_value).1.flatten) ∧
    (m.get_next_note_from_note net note).1.length = NUM_CLASSES ∧
    (m.get_next_note_from_note net note).1.count 1 = 1 ∧
    ∀ j (hj : j < (m.get_next_note_from_note net note).1.length),
      (m.get_next_note_from_note net note).1.get ⟨j, hj⟩ =
        if j = argmax ((net.run [[note]] (List.replicate m.batch_size 1)
            m.state_value).1.flatten)
        then 1 else 0 := by
  refine ⟨rfl, rfl, get_note_length _, get_note_count_one _ hlen, ?_⟩
  intro j hj
  exact get_note_pointwise _ j hj

/-- Witness for C5 at a concrete instance, network and note. -/
theorem get_next_note_from_note_spec_witness :
    ((uniformNet.run [[List.replicate NUM_CLASSES (0 : ℚ)]]
        (List.replicate sampleLoaderS.batch_size 1)
        sampleLoaderS.state_value).1.flatten).length = NUM_CLASSES ∧
    (sampleLoaderS.get_next_note_from_note uniformNet
        (List.replicate NUM_CLASSES (0 : ℚ))).1.length = NUM_CLASSES :=
  ⟨by decide,
    (get_next_note_from_note_spec uniformNet sampleLoaderS
      (List.replicate NUM_CLASSES (0 : ℚ)) (by decide)).2.2.1⟩

/-! ### C3: checkpoint resolution -/

/-- **C3, counterexample.** The claim fails as stated: when no
checkpoint exists under the directory and no backup checkpoint file was
given, `restore_vars_from_checkpoint` does not fail with an explicit
"no checkpoint available" error as the spec's
`resolve_checkpoint_path` contract demands — it proceeds to invoke the
library restore with a `None` path. -/
theorem restore_vars_no_explicit_error :
    sampleLoaderS.restore_vars_from_checkpoint (fun _ => none) "exp_dir" =
      RestoreCall.withNone ∧
    sampleLoaderS.restore_vars_from_checkpoint (fun _ => none) "exp_dir" ≠
      RestoreCall.explicitNoCheckpointError ∧
    resolve_checkpoint_path_spec none none =
      Except.error "no checkpoint available" := by
  refine ⟨rfl, ?_, rfl⟩
  intro h
  cases h

/-- **C3 (amended).** Checkpoint resolution prefers the most recent
checkpoint under the directory and otherwise falls back to the backup
checkpoint file, matching the spec's resolution whenever at least one of
the two exists; when both are absent, the code invokes the library
restore with a missing (`None`) path — whose failure is the library's,
not an explicit "no checkpoint available" error. -/
theorem restore_vars_resolution (latest : String → Option String)
    (m : NoteRNNLoader) (dir : String) :
    (∀ f, latest dir = some f →
      m.restore_vars_from_checkpoint latest dir = RestoreCall.withPath f ∧
      resolve_checkpoint_path_spec (latest dir) m.backup_checkpoint_file =
        Except.ok f) ∧
    (latest dir = none → ∀ b, m.backup_checkpoint_file = some b →
      m.restore_vars_from_checkpoint latest dir = RestoreCall.withPath b ∧
      resolve_checkpoint_path_spec (latest dir) m.backup_checkpoint_file =
        Except.ok b) ∧
    (latest dir = none → m.backup_checkpoint_file = none →
      m.restore_vars_from_checkpoint latest dir = RestoreCall.withNone) := by
  refine ⟨?_, ?_, ?_⟩
  · intro f hf
    constructor
    · unfold NoteRNNLoader.restore_vars_from_checkpoint
      rw [hf]
    · unfold resolve_checkpoint_path_spec
      rw [hf]
  · intro hl b hb
    constructor
    · unfold NoteRNNLoader.restore_vars_from_checkpoint
      rw [hl, hb]
    · unfold resolve_checkpoint_path_spec
      rw [hl, hb]
  · intro hl hb
    unfold NoteRNNLoader.restore_vars_from_checkpoint
    rw [hl, hb]

/-- Witness for the amended C3: a directory holding a checkpoint, and a
fallback to a present backup. -/
theorem restore_vars_resolution_witness :
    (sampleLoaderS.restore_vars_from_checkpoint (fun _ => some "model.ckpt-1900")
        "exp_dir" = RestoreCall.withPath "model.ckpt-1900" ∧
      resolve_checkpoint_path_spec ((fun (_ : String) => some "model.ckpt-1900") "exp_dir")
        sampleLoaderS.backup_checkpoint_file = Except.ok "model.ckpt-1900") :=
  (restore_vars_resolution (fun _ => some "model.ckpt-1900") sampleLoaderS "exp_dir").1
    "model.ckpt-1900" rfl

/-! ### C6: missing primer file -/

/-- The instance whose primer path names a file that does not exist. -/
def loaderMissingPrimer : NoteRNNLoader :=
  (NoteRNNLoader.init "rnn2" "rnn_model" (some "primer.mid") none none
    (some "backup.ckpt") noFiles sampleMelody).1

/-- The priming failure raised when the primer attribute was never
assigned. -/
def primerAttributeError : String :=
  "AttributeError: NoteRNNLoader instance has no attribute primer"

/-- **C6, counterexample.** The claim fails as stated: with no file at
the primer path, construction itself completes (priming data loading is
skipped with a warning and the state stays zero), but the
restore-and-prime mode does not complete without error — on the
constructed instance it fails at once reading `self.checkpoint_dir`,
which `__init__` never assigns, before any restore or priming. -/
theorem restore_initialize_prime_missing_primer :
    loaderMissingPrimer.primer = none ∧
    loaderMissingPrimer.checkpoint_dir = none ∧
    loaderMissingPrimer.restore_initialize_prime uniformNet
        (fun _ => some "model.ckpt-1900") =
      Except.error checkpointDirAttributeError := ⟨rfl, rfl, rfl⟩

/-- **C6 (amended).** If no primer file exists at the configured
`midi_primer` path, construction completes: loading is skipped, a
warning is logged, and the Recurrent State Vector is the all-zero
`1 × state_width` matrix.  The restore-and-prime mode, however, does not
complete without error: on the constructed instance it fails reading the
never-assigned `self.checkpoint_dir` attribute (`__init__` accepts
`experiment_dir` but stores nothing), before any restore or priming; and
even on an instance whose `checkpoint_dir` attribute an external caller
assigned, priming is not skipped — `prime_model` fails reading the
never-assigned `self.primer` attribute. -/
theorem init_missing_primer (scope cs p : String)
    (tfl : Option (List String)) (hp : Option HParams) (bcf : Option String)
    (fe : String → Bool) (ex : String → PrimerMelody)
    (hfe : fe p = false) :
    (NoteRNNLoader.init scope cs (some p) tfl hp bcf fe ex).2 = true ∧
    (NoteRNNLoader.init scope cs (some p) tfl hp bcf fe ex).1.primer = none ∧
    (NoteRNNLoader.init scope cs (some p) tfl hp bcf fe ex).1.state_value =
      zeroMatrix 1 (make_cell (hp.getD default_hparams)).state_size ∧
    (NoteRNNLoader.init scope cs (some p) tfl hp bcf fe ex).1.checkpoint_dir =
      none ∧
    (∀ net latest,
      (NoteRNNLoader.init scope cs (some p) tfl hp bcf fe ex).1.restore_initialize_prime
          net latest = Except.error checkpointDirAttributeError) ∧
    ∀ (m : NoteRNNLoader) net latest dir,
      m.checkpoint_dir = some dir → m.primer = none →
      m.restore_initialize_prime net latest =
        Except.ok (m.restore_vars_from_checkpoint latest dir,
          Except.error primerAttributeError) := by
  have hload : NoteRNNLoader.init scope cs (some p) tfl hp bcf fe ex =
      ((NoteRNNLoader.init scope cs (some p) tfl hp bcf fe ex).1, true) ∧
      (NoteRNNLoader.init scope cs (some p) tfl hp bcf fe ex).1.primer = none ∧
      (NoteRNNLoader.init scope cs (some p) tfl hp bcf fe ex).1.state_value =
        zeroMatrix 1 (make_cell (hp.getD default_hparams)).state_size ∧
      (NoteRNNLoader.init scope cs (some p) tfl hp bcf fe ex).1.checkpoint_dir =
        none := by
    unfold NoteRNNLoader.init NoteRNNLoader.load_primer
    simp [hfe, NoteRNNLoader.get_zero_state]
  refine ⟨?_, hload.2.1, hload.2.2.1, hload.2.2.2, ?_, ?_⟩
  · rw [congrArg Prod.snd hload.1]
  · intro net latest
    unfold NoteRNNLoader.restore_initialize_prime
    rw [hload.2.2.2]
  · intro m net latest dir hcd hpm
    unfold NoteRNNLoader.restore_initialize_prime
    rw [hcd]
    unfold NoteRNNLoader.prime_model
    rw [hpm]
    rfl

/-- Witness for the amended C6 at a concrete missing-primer instance. -/
theorem init_missing_primer_witness :
    noFiles "primer.mid" = false ∧
    (NoteRNNLoader.init "rnn2" "rnn_model" (some "primer.mid") none none
        (some "backup.ckpt") noFiles sampleMelody).1.primer = none ∧
    (NoteRNNLoader.init "rnn2" "rnn_model" (some "primer.mid") none none
        (some "backup.ckpt") noFiles sampleMelody).1.restore_initialize_prime
        uniformNet (fun _ => none) = Except.error checkpointDirAttributeError :=
  ⟨rfl,
    (init_missing_primer "rnn2" "rnn_model" "primer.mid" none none
      (some "backup.ckpt") noFiles sampleMelody rfl).2.1,
    (init_missing_primer "rnn2" "rnn_model" "primer.mid" none none
      (some "backup.ckpt") noFiles sampleMelody rfl).2.2.2.2.1 uniformNet
      (fun _ => none)⟩

/-! ### C7 and C8: training-batch guard -/

/-- A queue pipeline returning an empty batch. -/
def emptyQueueRun : List String → List (List ℚ) × List (List ℚ) × List Nat :=
  fun _ => ([], [], [])

/-- **C7.** With no training-data source configured
(`training_file_list` is `None`), `run_training_batch` refuses the
operation: a warning is logged, no result (not even a partial one) is
returned, and the instance — its Recurrent State Vector included — is
unchanged. -/
theorem run_training_batch_refused
    (queueRun : List String → List (List ℚ) × List (List ℚ) × List Nat)
    (m : NoteRNNLoader) (h : m.training_file_list = none) :
    m.run_training_batch queueRun = (none, true, m) ∧
    (m.run_training_batch queueRun).2.2.state_value = m.state_value := by
  unfold NoteRNNLoader.run_training_batch
  rw [h]
  exact ⟨rfl, rfl⟩

/-- Witness for C7 at a concrete unconfigured instance. -/
theorem run_training_batch_refused_witness :
    sampleLoaderS.training_file_list = none ∧
    sampleLoaderS.run_training_batch emptyQueueRun = (none, true, sampleLoaderS) :=
  ⟨rfl, (run_training_batch_refused emptyQueueRun sampleLoaderS rfl).1⟩

/-- The instance constructed with an empty (non-absent) training file
list. -/
def loaderEmptyTrainList : NoteRNNLoader :=
  (NoteRNNLoader.init "rnn3" "rnn_model" none (some []) none none
    noFiles sampleMelody).1

/-- **C8, counterexample.** The claim fails as stated: an empty training
file list is not `None`, so the guard in `run_training_batch` does not
fire — no warning is logged and the call does not return no-result;
instead the queue pipeline (built over zero files) is run. -/
theorem run_training_batch_empty_list_not_refused :
    loaderEmptyTrainList.training_file_list = some [] ∧
    (loaderEmptyTrainList.run_training_batch emptyQueueRun).1 ≠ none ∧
    (loaderEmptyTrainList.run_training_batch emptyQueueRun).2.1 = false := by
  refine ⟨rfl, ?_, rfl⟩
  intro h
  cases h

/-- **C8 (amended).** Only an absent (`None`) training file list is
refused with a warning; any present list — the empty list included —
passes the `is None` guard, so `run_training_batch` starts the queue
runners and runs the pipeline built over the (possibly empty) file list,
logging no warning; what happens then is the data-feeding library's
behaviour, not a graceful refusal. -/
theorem run_training_batch_with_list
    (queueRun : List String → List (List ℚ) × List (List ℚ) × List Nat)
    (m : NoteRNNLoader) (files : List String)
    (h : m.training_file_list = some files) :
    m.run_training_batch queueRun = (some (queueRun files), false, m) := by
  unfold NoteRNNLoader.run_training_batch
  rw [h]

/-- Witness for the amended C8 at the empty-list instance. -/
theorem run_training_batch_with_list_witness :
    loaderEmptyTrainList.training_file_list = some [] ∧
    loaderEmptyTrainList.run_training_batch emptyQueueRun =
      (some (emptyQueueRun []), false, loaderEmptyTrainList) :=
  ⟨rfl, run_training_batch_with_list emptyQueueRun loaderEmptyTrainList [] rfl⟩

/-! ### C9: Recurrent State Vector shape -/

/-- The zero matrix has the dims it was built with. -/
theorem zeroMatrix_dims (r c : Nat) : isMatrixOfDims r c (zeroMatrix r c) := by
  constructor
  · simp [zeroMatrix]
  · intro row hrow
    rw [List.eq_of_mem_replicate hrow]
    simp

/-- Construction-time facts shared by every `__init__` path: batch size
1, zero state of the cell's width, cell and hparams as configured. -/
theorem init_core (scope cs : String) (mp : Option String)
    (tfl : Option (List String)) (hp : Option HParams) (bcf : Option String)
    (fe : String → Bool) (ex : String → PrimerMelody) :
    (NoteRNNLoader.init scope cs mp tfl hp bcf fe ex).1.batch_size = 1 ∧
    (NoteRNNLoader.init scope cs mp tfl hp bcf fe ex).1.state_value =
      zeroMatrix 1 (make_cell (hp.getD default_hparams)).state_size ∧
    (NoteRNNLoader.init scope cs mp tfl hp bcf fe ex).1.cell =
      make_cell (hp.getD default_hparams) ∧
    (NoteRNNLoader.init scope cs mp tfl hp bcf fe ex).1.hparams =
      hp.getD default_hparams := by
  cases mp with
  | none => exact ⟨rfl, rfl, rfl, rfl⟩
  | some p =>
    cases hfe : fe p with
    | true =>
      unfold NoteRNNLoader.init NoteRNNLoader.load_primer
      simp [hfe, NoteRNNLoader.get_zero_state]
    | false =>
      unfold NoteRNNLoader.init NoteRNNLoader.load_primer
      simp [hfe, NoteRNNLoader.get_zero_state]

/-- **C9.** The Recurrent State Vector is initialized at construction to
the all-zero matrix of shape batch_size × state_width with batch_size
fixed to 1; and — for a network whose returned final state preserves
that shape, as the underlying dynamic RNN's does — every operation that
mutates the state (`get_next_note_from_note`, `prime_model`) preserves
the shape. -/
theorem state_value_shape (scope cs : String) (mp : Option String)
    (tfl : Option (List String)) (hp : Option HParams) (bcf : Option String)
    (fe : String → Bool) (ex : String → PrimerMelody) (net : Network)
    (w : Nat) (hw : w = (make_cell (hp.getD default_hparams)).state_size)
    (hnet : ∀ mseq lens s, isMatrixOfDims 1 w s →
      isMatrixOfDims 1 w (net.run mseq lens s).2) :
    (NoteRNNLoader.init scope cs mp tfl hp bcf fe ex).1.batch_size = 1 ∧
    (NoteRNNLoader.init scope cs mp tfl hp bcf fe ex).1.state_value =
      zeroMatrix 1 w ∧
    isMatrixOfDims 1 w
      (NoteRNNLoader.init scope cs mp tfl hp bcf fe ex).1.state_value ∧
    (∀ row ∈ (NoteRNNLoader.init scope cs mp tfl hp bcf fe ex).1.state_value,
      ∀ q ∈ row, q = 0) ∧
    (∀ (m : NoteRNNLoader) (note : List ℚ), isMatrixOfDims 1 w m.state_value →
      isMatrixOfDims 1 w (m.get_next_note_from_note net note).2.state_value) ∧
    (∀ (m m' : NoteRNNLoader), m.prime_model net = Except.ok m' →
      isMatrixOfDims 1 w m.state_value → isMatrixOfDims 1 w m'.state_value) := by
  obtain ⟨hbs, hsv, -, -⟩ := init_core scope cs mp tfl hp bcf fe ex
  subst hw
  refine ⟨hbs, hsv, ?_, ?_, ?_, ?_⟩
  · rw [hsv]
    exact zeroMatrix_dims _ _
  · intro row hrow q hq
    rw [hsv] at hrow
    rw [List.eq_of_mem_replicate hrow] at hq
    exact List.eq_of_mem_replicate hq
  · intro m note hdim
    exact hnet _ _ _ hdim
  · intro m m' hok hdim
    simp only [NoteRNNLoader.prime_model] at hok
    split at hok
    · cases hok
    · split at hok
      · cases hok
      · injection hok with hok
        rw [← hok]
        exact hnet _ _ _ hdim

/-- Witness for C9: the default configuration (state width 100), with a
state-echoing network. -/
theorem state_value_shape_witness :
    100 = (make_cell ((none : Option HParams).getD default_hparams)).state_size ∧
    (NoteRNNLoader.init "s" "ckpt" none none none none
        noFiles sampleMelody).1.state_value = zeroMatrix 1 100 :=
  ⟨rfl,
    (state_value_shape "s" "ckpt" none none none none noFiles sampleMelody
      uniformNet 100 rfl (fun _ _ _ h => h)).2.1⟩

/-! ### C10: prime_model threads the current state -/

/-- Successful `prime_model`, explicitly: the forward pass is fed the
instance's current state, the returned final state is stored, and the
priming note is the one-hot of the last softmax row's argmax. -/
theorem prime_model_ok (net : Network) (m : NoteRNNLoader) (pm : PrimerMelody)
    (hpm : m.primer = some pm) (last : List ℚ)
    (hlast : (net.run (List.replicate m.batch_size pm.inputs)
        (List.replicate m.batch_size pm.length) m.state_value).1.getLast? =
      some last) :
    m.prime_model net = Except.ok { m with
      state_value := (net.run (List.replicate m.batch_size pm.inputs)
        (List.replicate m.batch_size pm.length) m.state_value).2
      priming_note := some (NoteRNNLoader.get_note_from_softmax last) } := by
  simp only [NoteRNNLoader.prime_model]
  rw [hpm]
  dsimp only
  rw [hlast]

/-- **C10.** `prime_model` feeds the current value of the Recurrent
State Vector as the initial state of the priming forward pass rather
than zeroing it first: the stored final state is the network's answer to
the current state; right after construction the current state is the
zero state, so the first priming runs from the all-zero matrix; and a
second `prime_model` call continues from the state the first call left
behind. -/
theorem prime_model_feeds_current_state (net : Network) (m : NoteRNNLoader)
    (pm : PrimerMelody) (hpm : m.primer = some pm) (last : List ℚ)
    (hlast : (net.run (List.replicate m.batch_size pm.inputs)
        (List.replicate m.batch_size pm.length) m.state_value).1.getLast? =
      some last) :
    ∃ m', m.prime_model net = Except.ok m' ∧
      m'.state_value = (net.run (List.replicate m.batch_size pm.inputs)
        (List.replicate m.batch_size pm.length) m.state_value).2 ∧
      m'.primer = some pm ∧
      m'.batch_size = m.batch_size ∧
      (m.state_value = m.get_zero_state →
        m'.state_value = (net.run (List.replicate m.batch_size pm.inputs)
          (List.replicate m.batch_size pm.length)
          (zeroMatrix m.batch_size m.cell.state_size)).2) ∧
      ∀ (m2 : NoteRNNLoader), m2.primer = some pm →
        ∀ last2, (net.run (List.replicate m2.batch_size pm.inputs)
            (List.replicate m2.batch_size pm.length) m2.state_value).1.getLast? =
              some last2 →
          ∃ m3, m2.prime_model net = Except.ok m3 ∧
            m3.state_value = (net.run (List.replicate m2.batch_size pm.inputs)
              (List.replicate m2.batch_size pm.length) m2.state_value).2 := by
  refine ⟨_, prime_model_ok net m pm hpm last hlast, rfl, hpm, rfl, ?_, ?_⟩
  · intro h
    rw [show m.get_zero_state = zeroMatrix m.batch_size m.cell.state_size
      from rfl] at h
    rw [← h]
  · intro m2 hpm2 last2 hlast2
    exact ⟨_, prime_model_ok net m2 pm hpm2 last2 hlast2, rfl⟩

/-- The instance constructed with an existing primer file. -/
def loaderPrimed : NoteRNNLoader :=
  (NoteRNNLoader.init "rnn4" "rnn_model" (some "p.mid") none none none
    allFiles sampleMelody).1

/-- Witness for C10 at a concrete primed instance. -/
theorem prime_model_feeds_current_state_witness :
    loaderPrimed.primer = some (sampleMelody "p.mid") ∧
    ∃ m', loaderPrimed.prime_model uniformNet = Except.ok m' ∧
      m'.state_value = (uniformNet.run
        (List.replicate loaderPrimed.batch_size (sampleMelody "p.mid").inputs)
        (List.replicate loaderPrimed.batch_size (sampleMelody "p.mid").length)
        loaderPrimed.state_value).2 := by
  obtain ⟨m', h1, h2, -⟩ := prime_model_feeds_current_state uniformNet
    loaderPrimed (sampleMelody "p.mid") rfl
    (List.replicate NUM_CLASSES ((1 : ℚ) / 38)) rfl
  exact ⟨rfl, m', h1, h2⟩

end Magenta
